import Mathlib

/-!
Verification of `src/assets/rename_font.py`: a single-shot utility that loads
a font file, overwrites the naming records whose `nameID` appears in a fixed
mapping with UTF-16BE-encoded replacement strings, saves the file in place, and
prints a success message.

The shallow embedding below models a naming record as its four numeric
identifiers plus the raw stored bytes, a font as its list of naming records
plus the (opaque) bytes of all other tables, and the script run as an event
trace (load, save, print) over the file at the fixed path.
-/

namespace RenameFont

/-- A naming record of the font's `name` table, as manipulated by the script:
`record.nameID`, `record.platformID`, `record.platEncID`, `record.langID` and
the raw stored bytes `record.string` (each byte a `Nat < 256`). -/
structure NameRecord where
  nameID : Nat
  platformID : Nat
  platEncID : Nat
  langID : Nat
  string : List Nat
deriving DecidableEq, Repr, Inhabited

/-- The hardcoded `name_map` dictionary of the script (lines 12-18):
1 = Family, 2 = Subfamily, 3 = Unique Identifier, 4 = Full Font Name,
6 = PostScript Name.  Lookup is embedded as a `Nat → Option String`. -/
def name_map (n : Nat) : Option String :=
  if n = 1 then some "Ashell Nerd Font"
  else if n = 2 then some "Regular"
  else if n = 3 then some "AshellNerdFont-Regular"
  else if n = 4 then some "Ashell Nerd Font Regular"
  else if n = 6 then some "AshellNerdFont-Regular"
  else none

/-- UTF-16BE encoding of one Unicode code point, as Python's
`str.encode("utf-16-be")` produces per character: two big-endian bytes for
code points below `0x10000`, a surrogate pair (four bytes) above. -/
def utf16beChar (c : Nat) : List Nat :=
  if c < 0x10000 then [c / 256, c % 256]
  else
    let c' := c - 0x10000
    let hi := 0xD800 + c' / 0x400
    let lo := 0xDC00 + c' % 0x400
    [hi / 256, hi % 256, lo / 256, lo % 256]

/-- `new_name.encode("utf-16-be")`: the byte sequence stored into a matching
record (line 23 of the script). -/
def utf16be (s : String) : List Nat :=
  (s.data.map (fun c => utf16beChar c.toNat)).flatten

/-- The body of the rewrite loop (lines 20-23): if `record.nameID in name_map`
the stored bytes are replaced by the UTF-16BE encoding of the mapped string;
otherwise the record is left as it is.  All other fields are untouched. -/
def rewriteRecord (r : NameRecord) : NameRecord :=
  match name_map r.nameID with
  | some s => { r with string := utf16be s }
  | none => r

/-- The rewrite loop applied to the whole `name` table: each record of
`font["name"].names` is updated in place, so the result is the elementwise
image of the list. -/
def rewriteNames (names : List NameRecord) : List NameRecord :=
  names.map rewriteRecord

/-- The font as the script sees it: the `name` table records, plus the bytes
of every other table (`other`), which the script never touches. -/
structure Font where
  names : List NameRecord
  other : List Nat
deriving DecidableEq, Repr, Inhabited

/-- Effect of the whole rewrite on the loaded font: the `name` table is
rewritten record by record and everything else is carried over. -/
def rewriteFont (f : Font) : Font :=
  { f with names := rewriteNames f.names }

/-- The code points of a Lean string, used to state "the decoded text equals
the mapped value" without going through `Char.ofNat`. -/
def strCodes (s : String) : List Nat :=
  s.data.map Char.toNat

/-- The text encoding the font-naming registry designates for a
platform/encoding pair. -/
inductive TextEnc where
  | utf16be
  | singleByte
deriving DecidableEq, Repr

/-- Modelled from the spec: the script relies on the underlying font library,
which decodes each record's bytes per the font-naming registry; "UTF-16BE is
… true only for certain platform/encoding combinations" (spec §9).  Per the
registry, the Unicode platform (0) and the Windows platform (3) with a
Unicode encoding ID (0, 1 or 10) use UTF-16BE; the remaining combinations
(notably the Macintosh platform, 1, whose mac_roman agrees with ASCII below
0x80) use byte-per-character encodings, modelled here as byte identity, exact
on the ASCII range, which is all these claims touch. -/
def registryEncoding (platformID platEncID : Nat) : TextEnc :=
  if platformID = 0 then TextEnc.utf16be
  else if platformID = 3 ∧ (platEncID = 0 ∨ platEncID = 1 ∨ platEncID = 10) then TextEnc.utf16be
  else TextEnc.singleByte

/-- Big-endian 16-bit units of a byte sequence (a trailing odd byte yields no
unit). -/
def utf16beUnits : List Nat → List Nat
  | b1 :: b2 :: rest => (b1 * 256 + b2) :: utf16beUnits rest
  | _ => []

/-- Combine UTF-16 surrogate pairs among the 16-bit units into code points. -/
def combineSurrogates : List Nat → List Nat
  | [] => []
  | [u] => [u]
  | u1 :: u2 :: rest =>
    if 0xD800 ≤ u1 ∧ u1 < 0xDC00 ∧ 0xDC00 ≤ u2 ∧ u2 < 0xE000 then
      (0x10000 + (u1 - 0xD800) * 0x400 + (u2 - 0xDC00)) :: combineSurrogates rest
    else
      u1 :: combineSurrogates (u2 :: rest)

/-- Decode stored bytes to a sequence of code points under a registry
encoding. -/
def decodeBytes : TextEnc → List Nat → List Nat
  | TextEnc.utf16be, bs => combineSurrogates (utf16beUnits bs)
  | TextEnc.singleByte, bs => bs

/-- The decoded text of a naming record: its stored bytes decoded under the
encoding the registry designates for its platform/encoding pair. -/
def decodeRecord (r : NameRecord) : List Nat :=
  decodeBytes (registryEncoding r.platformID r.platEncID) r.string

/-- The fixed success string printed by the script (line 28). -/
def successMsg : String := "✅ Font renamed and saved as ashell_icon.ttf"

/-- Observable events of one script run, in program order. -/
inductive Event where
  | loadFail
  | loadOk (f : Font)
  | save (f : Font)
  | saveFail
  | printed (s : String)
deriving DecidableEq, Repr

/-- The script run as an event trace.  `file` is the content of
`FONT_PATH` before the run (`none` when no valid font file exists there);
`saveOk` says whether the library's save call succeeds.  Modelled from the
spec for the failure arms: `TTFont(FONT_PATH)` raises when the file is
missing or malformed and any raised error aborts the whole script (spec §4.1,
§7); the success arm follows the source line by line: load (line 9), rewrite
loop (lines 20-23), save (line 26), print (line 28). -/
def run (file : Option Font) (saveOk : Bool) : List Event :=
  match file with
  | none => [Event.loadFail]
  | some f =>
    if saveOk then
      [Event.loadOk f, Event.save (rewriteFont f), Event.printed successMsg]
    else
      [Event.loadOk f, Event.saveFail]

/-- The fonts written to disk during a trace, in order. -/
def savesIn (tr : List Event) : List Font :=
  tr.filterMap fun e =>
    match e with
    | Event.save f => some f
    | _ => none

/-- Whether a trace contains a completed save. -/
def savedIn (tr : List Event) : Bool :=
  tr.any fun e =>
    match e with
    | Event.save _ => true
    | _ => false

/-- How many success messages a trace prints. -/
def printedCount (tr : List Event) : Nat :=
  (tr.filter fun e =>
    match e with
    | Event.printed _ => true
    | _ => false).length

/-- The content of `FONT_PATH` after a run: the last font saved during the
trace, or the original content when nothing was written. -/
def fileAfter (file : Option Font) (saveOk : Bool) : Option Font :=
  (savesIn (run file saveOk)).foldl (fun _ f => some f) file

/-- The identifiers of a naming record, everything except the stored bytes. -/
def recordKey (r : NameRecord) : Nat × Nat × Nat × Nat :=
  (r.nameID, r.platformID, r.platEncID, r.langID)

/-- A one-record font whose record carries the unmapped `nameID` 5
(concrete input for C2's witness). -/
def wFont5 : Font :=
  { names := [{ nameID := 5, platformID := 3, platEncID := 1, langID := 1033, string := [86, 49] }],
    other := [9] }

/-- A one-record font whose record carries the mapped `nameID` 3 on a
Macintosh platform/encoding pair (concrete input for C3's witness). -/
def wFont3 : Font :=
  { names := [{ nameID := 3, platformID := 1, platEncID := 0, langID := 0, string := [88] }],
    other := [] }

/-- A record with the mapped `nameID` 4 on the Windows platform (concrete
input for C10's witness). -/
def wRec4a : NameRecord :=
  { nameID := 4, platformID := 3, platEncID := 1, langID := 1033, string := [1] }

/-- A record with the mapped `nameID` 4 on the Macintosh platform and other
stored bytes (concrete input for C10's witness). -/
def wRec4b : NameRecord :=
  { nameID := 4, platformID := 1, platEncID := 0, langID := 0, string := [2, 3] }

/-- A one-record font whose family-name record sits on the Macintosh
platform (1, mac_roman), where UTF-16BE is not the registry encoding. -/
def cexFontMac : Font :=
  { names := [{ nameID := 1, platformID := 1, platEncID := 0, langID := 0,
                string := [79, 108, 100] }],
    other := [] }

/-- A Windows-platform full-name record (concrete input for the amended C1's
witness). -/
def wRecWin : NameRecord :=
  { nameID := 4, platformID := 3, platEncID := 1, langID := 1033, string := [79, 108, 100] }

/-- The font holding just `wRecWin`. -/
def wFontWin : Font :=
  { names := [wRecWin], other := [2] }

/-- The spec's scenario font: records `(1, "Old Family")`, `(2, "Bold")`,
`(6, "OldPS")` plus an extra `nameID` 16 record. -/
def exFont7 : Font :=
  { names :=
      [ { nameID := 1, platformID := 3, platEncID := 1, langID := 1033,
          string := utf16be "Old Family" },
        { nameID := 2, platformID := 3, platEncID := 1, langID := 1033,
          string := utf16be "Bold" },
        { nameID := 6, platformID := 3, platEncID := 1, langID := 1033,
          string := utf16be "OldPS" },
        { nameID := 16, platformID := 3, platEncID := 1, langID := 1033,
          string := utf16be "Keep Family" } ],
    other := [7, 7, 7] }

/-- A one-record font for C9's witness run. -/
def wFontOne : Font :=
  { names := [{ nameID := 2, platformID := 0, platEncID := 3, langID := 0, string := [] }],
    other := [4, 2] }

lemma rewriteRecord_of_none {r : NameRecord} (hm : name_map r.nameID = none) :
    rewriteRecord r = r := by
  simp [rewriteRecord, hm]

lemma rewriteRecord_of_some {r : NameRecord} {s : String} (hm : name_map r.nameID = some s) :
    rewriteRecord r = { r with string := utf16be s } := by
  simp [rewriteRecord, hm]

lemma rewriteRecord_idem (r : NameRecord) :
    rewriteRecord (rewriteRecord r) = rewriteRecord r := by
  rcases hm : name_map r.nameID with _ | s
  · rw [rewriteRecord_of_none hm, rewriteRecord_of_none hm]
  · rw [rewriteRecord_of_some hm]
    exact rewriteRecord_of_some hm

lemma recordKey_rewriteRecord (r : NameRecord) :
    recordKey (rewriteRecord r) = recordKey r := by
  rcases hm : name_map r.nameID with _ | s
  · rw [rewriteRecord_of_none hm]
  · rw [rewriteRecord_of_some hm]
    rfl

/-- Every string the mapping produces decodes back from UTF-16BE to the code
points it was encoded from. -/
lemma decode_utf16be_mapped (n : Nat) (s : String) (h : name_map n = some s) :
    decodeBytes TextEnc.utf16be (utf16be s) = strCodes s := by
  unfold name_map at h
  split_ifs at h <;> simp only [Option.some.injEq] at h <;> subst h <;> decide

/-- C2.  For every naming record whose `nameID` is not a key of the mapping,
the record after the run (same position of the name table) is identical to the
record before the run, stored bytes included. -/
theorem unmapped_record_unchanged (f : Font) (i : Nat) (h : i < f.names.length)
    (hm : name_map (f.names.get ⟨i, h⟩).nameID = none) :
    (rewriteFont f).names[i]? = some (f.names.get ⟨i, h⟩) := by
  have hm' : name_map f.names[i].nameID = none := hm
  simp [rewriteFont, rewriteNames, List.getElem?_map, List.getElem?_eq_getElem h,
    rewriteRecord_of_none hm']

/-- Witness for C2 at a one-record font whose record has the unmapped
`nameID` 5. -/
theorem unmapped_record_unchanged_witness :
    (rewriteFont wFont5).names[0]? = some (wFont5.names.get ⟨0, by decide⟩) :=
  unmapped_record_unchanged wFont5 0 (by decide) (by decide)

/-- C3.  For every naming record whose `nameID` is a key of the mapping, the
bytes stored into the record are exactly the UTF-16BE encoding of the mapped
string, with no condition on the record's platform or encoding identifiers. -/
theorem mapped_record_bytes_utf16be (f : Font) (i : Nat) (h : i < f.names.length)
    (s : String) (hm : name_map (f.names.get ⟨i, h⟩).nameID = some s) :
    ((rewriteFont f).names[i]?).map NameRecord.string = some (utf16be s) := by
  have hm' : name_map f.names[i].nameID = some s := hm
  simp [rewriteFont, rewriteNames, List.getElem?_map, List.getElem?_eq_getElem h,
    rewriteRecord_of_some hm']

/-- Witness for C3 at a one-record font whose record carries the mapped
`nameID` 3 on a Macintosh platform/encoding pair. -/
theorem mapped_record_bytes_utf16be_witness :
    ((rewriteFont wFont3).names[0]?).map NameRecord.string
      = some (utf16be "AshellNerdFont-Regular") :=
  mapped_record_bytes_utf16be wFont3 0 (by decide) "AshellNerdFont-Regular" (by decide)

/-- C4.  The rewrite is idempotent, both on the in-memory font and at the
file level: running the script twice in succession on the file leaves the
same content as running it once. -/
theorem rewrite_idempotent (f : Font) :
    rewriteFont (rewriteFont f) = rewriteFont f ∧
    fileAfter (fileAfter (some f) true) true = fileAfter (some f) true := by
  have h : rewriteFont (rewriteFont f) = rewriteFont f := by
    simp [rewriteFont, rewriteNames, List.map_map, Function.comp_def, rewriteRecord_idem]
  exact ⟨h, by simp [fileAfter, run, savesIn, h]⟩

/-- C5.  After a successful run, the non-name-table data of the file is the
non-name-table data of the input font: the script never touches `other`, and
the save (modelled from the spec: the library's re-serialization passes
untouched tables through unchanged, spec §6) writes it back as it was. -/
theorem other_tables_preserved (f : Font) :
    (fileAfter (some f) true).map Font.other = some f.other ∧
    (rewriteFont f).other = f.other := by
  constructor
  · simp [fileAfter, run, savesIn, rewriteFont]
  · rfl

/-- C8.  The rewrite creates and deletes no record: the name table keeps its
length, and at every position the record keeps its `nameID`, `platformID`,
`platEncID` and `langID`; only stored bytes may change. -/
theorem no_record_created_or_deleted (f : Font) :
    (rewriteFont f).names.length = f.names.length ∧
    ∀ i : Nat, ((rewriteFont f).names[i]?).map recordKey = (f.names[i]?).map recordKey := by
  constructor
  · simp [rewriteFont, rewriteNames]
  · intro i
    rcases hx : f.names[i]? with _ | r <;>
      simp [rewriteFont, rewriteNames, List.getElem?_map, hx, recordKey_rewriteRecord]

/-- C10.  The bytes stored into a mapped record depend only on its `nameID`:
any two records (from any two fonts) that share a mapped `nameID` hold
identical bytes after the rewrite, whatever their previous texts and their
platform/encoding/language identifiers. -/
theorem mapped_bytes_depend_only_on_nameID (r1 r2 : NameRecord)
    (hid : r1.nameID = r2.nameID) (hm : (name_map r1.nameID).isSome = true) :
    (rewriteRecord r1).string = (rewriteRecord r2).string := by
  rcases hms : name_map r2.nameID with _ | s
  · rw [hid, hms] at hm; simp at hm
  · rw [rewriteRecord_of_some (hid ▸ hms), rewriteRecord_of_some hms]

/-- Witness for C10 at two records with `nameID` 4 that differ in stored
bytes and in every platform identifier. -/
theorem mapped_bytes_depend_only_on_nameID_witness :
    (rewriteRecord wRec4a).string = (rewriteRecord wRec4b).string :=
  mapped_bytes_depend_only_on_nameID wRec4a wRec4b (by decide) (by decide)

/-- C1 counterexample.  After the run, the Macintosh-platform record with
`nameID` 1 does not decode to "Ashell Nerd Font": the script wrote UTF-16BE
bytes into a record whose registry encoding is byte-per-character, so the
decoded text is NUL-interleaved.  The claim fails for this
platform/encoding triple. -/
theorem mac_record_decode_ne_mapped :
    ((rewriteFont cexFontMac).names.headD default).nameID = 1 ∧
    decodeRecord ((rewriteFont cexFontMac).names.headD default) ≠ strCodes "Ashell Nerd Font" := by
  decide

/-- C1 as amended.  For every naming record of the rewritten font whose
platform/encoding pair designates UTF-16BE in the naming registry, if its
`nameID` is mapped then its decoded text is exactly the mapped value. -/
theorem utf16_record_decodes_to_mapped (f : Font) (r : NameRecord) (s : String)
    (hr : r ∈ (rewriteFont f).names)
    (henc : registryEncoding r.platformID r.platEncID = TextEnc.utf16be)
    (hm : name_map r.nameID = some s) :
    decodeRecord r = strCodes s := by
  simp only [rewriteFont, rewriteNames, List.mem_map] at hr
  obtain ⟨r0, _, rfl⟩ := hr
  rcases h0 : name_map r0.nameID with _ | s0
  · rw [rewriteRecord_of_none h0] at hm
    rw [h0] at hm
    cases hm
  · rw [rewriteRecord_of_some h0] at hm henc ⊢
    have hs : s0 = s := by
      have : name_map r0.nameID = some s := hm
      rw [h0] at this
      exact Option.some.inj this
    subst hs
    have henc' : registryEncoding r0.platformID r0.platEncID = TextEnc.utf16be := henc
    show decodeRecord { r0 with string := utf16be s0 } = strCodes s0
    unfold decodeRecord
    show decodeBytes (registryEncoding r0.platformID r0.platEncID) (utf16be s0) = strCodes s0
    rw [henc']
    exact decode_utf16be_mapped r0.nameID s0 h0

/-- Witness for the amended C1 at a Windows-platform full-name record. -/
theorem utf16_record_decodes_to_mapped_witness :
    decodeRecord (rewriteRecord wRecWin) = strCodes "Ashell Nerd Font Regular" :=
  utf16_record_decodes_to_mapped wFontWin (rewriteRecord wRecWin) "Ashell Nerd Font Regular"
    (by decide) (by decide) (by decide)

/-- C6.  When no font file exists at the fixed path, the run fails at the
load, performs no write, prints nothing, and leaves the path unmodified. -/
theorem missing_file_no_write (ok : Bool) :
    run none ok = [Event.loadFail] ∧ savesIn (run none ok) = [] ∧
    printedCount (run none ok) = 0 ∧ fileAfter none ok = none := by
  cases ok <;> exact ⟨rfl, rfl, rfl, rfl⟩

/-- C7.  On the scenario font, one run turns the three mapped records into
"Ashell Nerd Font", "Regular" and "AshellNerdFont-Regular", keeps the
`nameID` 16 record verbatim, and the rewritten records decode to exactly
those texts. -/
theorem scenario_three_records :
    rewriteFont exFont7 =
      { names :=
          [ { nameID := 1, platformID := 3, platEncID := 1, langID := 1033,
              string := utf16be "Ashell Nerd Font" },
            { nameID := 2, platformID := 3, platEncID := 1, langID := 1033,
              string := utf16be "Regular" },
            { nameID := 6, platformID := 3, platEncID := 1, langID := 1033,
              string := utf16be "AshellNerdFont-Regular" },
            { nameID := 16, platformID := 3, platEncID := 1, langID := 1033,
              string := utf16be "Keep Family" } ],
        other := [7, 7, 7] } ∧
    (rewriteFont exFont7).names.map decodeRecord =
      [strCodes "Ashell Nerd Font", strCodes "Regular",
       strCodes "AshellNerdFont-Regular", strCodes "Keep Family"] := by
  decide

/-- C9.  Whenever the success message appears at position `i` of a run's
trace, the run had loaded a font and its save succeeded, the message is
printed exactly once, a completed save precedes it, and it is the last event
of the run; contrapositively, a run that fails at the load or the save prints
nothing. -/
theorem success_message_once_after_save (file : Option Font) (ok : Bool) (i : Nat)
    (h : (run file ok)[i]? = some (Event.printed successMsg)) :
    file.isSome = true ∧ ok = true ∧
    printedCount (run file ok) = 1 ∧
    savedIn ((run file ok).take i) = true ∧
    i + 1 = (run file ok).length := by
  cases file with
  | none =>
    rcases i with _ | i <;> simp [run] at h
  | some f =>
    cases ok with
    | false =>
      rcases i with _ | _ | i <;> simp [run] at h
    | true =>
      rcases i with _ | _ | _ | i <;> simp [run] at h
      refine ⟨rfl, rfl, ?_, ?_, ?_⟩ <;> simp [run, printedCount, savedIn]

/-- Witness for C9 at a successful run over a one-record font: the message
sits at position 2 of the trace. -/
theorem success_message_once_after_save_witness :
    (some wFontOne).isSome = true ∧ true = true ∧
    printedCount (run (some wFontOne) true) = 1 ∧
    savedIn ((run (some wFontOne) true).take 2) = true ∧
    2 + 1 = (run (some wFontOne) true).length :=
  success_message_once_after_save (some wFontOne) true 2 (by decide)

end RenameFont
